import Mathlib

/-!
Verification of the streaming voicemail-drop detection engine of
`voicemail_drop.py` (ClearPath Finance repository).

The embedding models the per-chunk pipeline downstream of the DSP front end:
a 20 ms audio chunk is characterised by its observable features (the VAD
verdict, the maximal FFT magnitude in dB inside the 1000-2000 Hz beep band,
and the RMS energy in dB), exactly the three scalars the Python detectors
extract from the raw samples before any stateful logic runs.  All float
arithmetic of the source is embedded as exact rational arithmetic.  The
external Gemini text-understanding capability is a parameter
(`Capability`): `none` when no model is configured, `some call` when
configured, with `call t = none` modelling a raised/unparseable response
(the `except` branch of `analyze_transcript`).
-/

namespace VoicemailDrop

attribute [local semireducible] Rat.add Rat.mul Rat.sub Rat.inv

/- Constants (module-level constants and SAFETY_RULES of voicemail_drop.py);
decimal values are written as exact fractions. -/

def CHUNK_DURATION_MS : ℚ := 20
def chunk_duration : ℚ := CHUNK_DURATION_MS / 1000
def SILENCE_THRESHOLD_DB : ℚ := -40
def SILENCE_DURATION_THRESHOLD : ℚ := 3/2
def BEEP_MIN_DURATION : ℚ := 1/5
def BEEP_ENERGY_THRESHOLD : ℚ := -20
def min_buffer_beep : ℚ := 1/10
def min_buffer_silence : ℚ := 1/2
def max_greeting_length : ℚ := 30
def confidence_threshold : ℚ := 4/5
def min_greeting_length : ℚ := 2

/-- Observable features of one 20 ms chunk: the VAD verdict
(`vad.is_speech(chunk)`), the in-band FFT peak in dB
(`np.max(fft_db[mask])` of `BeepDetector.analyze_chunk`), and the RMS level
in dB (`20*log10(rms + 1e-10)` of `SilenceTracker.analyze_chunk`). -/
structure ChunkFeat where
  is_speech : Bool
  beep_energy : ℚ
  rms_db : ℚ
deriving DecidableEq

/-- Mutable state of `BeepDetector`. -/
structure BeepState where
  beep_buffer : List ℚ
  beep_timestamps : List ℚ
deriving DecidableEq

def BeepState.init : BeepState := ⟨[], []⟩

/-- The run length int(self.min_duration / (CHUNK_DURATION_MS / 1000)) = int(0.2/0.02) = 10. -/
def beep_run_chunks : ℕ := 10

/-- Embedding of `BeepDetector.analyze_chunk`: push the timestamp on a qualifying chunk,
clear the run buffer otherwise, confirm once the buffer holds 10 chunks.
Returns (new state, is_beep, confidence). -/
def BeepDetector.analyze_chunk (s : BeepState) (beep_energy timestamp : ℚ) :
    BeepState × Bool × ℚ :=
  if BEEP_ENERGY_THRESHOLD < beep_energy then
    if beep_run_chunks ≤ (s.beep_buffer ++ [timestamp]).length then
      (⟨s.beep_buffer ++ [timestamp], s.beep_timestamps ++ [timestamp]⟩, true,
        min 1 ((beep_energy - BEEP_ENERGY_THRESHOLD) / 20))
    else (⟨s.beep_buffer ++ [timestamp], s.beep_timestamps⟩, false, 0)
  else (⟨[], s.beep_timestamps⟩, false, 0)

def BeepDetector.get_last_beep (s : BeepState) : Option ℚ := s.beep_timestamps.getLast?

/-- Mutable state of `SilenceTracker`. -/
structure SilenceState where
  silence_start : Option ℚ
  last_speech_time : ℚ
  silence_detected : Bool
deriving DecidableEq

def SilenceState.init : SilenceState := ⟨none, 0, false⟩

/-- Python `if self.silence_start is None: self.silence_start = timestamp`. -/
def SilenceTracker.silenceStart (s : SilenceState) (timestamp : ℚ) : ℚ :=
  match s.silence_start with
  | none => timestamp
  | some t0 => t0

/-- Embedding of `SilenceTracker.analyze_chunk`.  Returns (new state, threshold met, confidence). -/
def SilenceTracker.analyze_chunk (s : SilenceState) (rms_db timestamp : ℚ)
    (is_speech : Bool) : SilenceState × Bool × ℚ :=
  if rms_db < SILENCE_THRESHOLD_DB ∧ is_speech = false then
    if SILENCE_DURATION_THRESHOLD ≤ timestamp - SilenceTracker.silenceStart s timestamp ∧
        0 < s.last_speech_time then
      (⟨some (SilenceTracker.silenceStart s timestamp), s.last_speech_time, true⟩, true,
        min 1 ((timestamp - SilenceTracker.silenceStart s timestamp) /
          (SILENCE_DURATION_THRESHOLD * 2)))
    else
      (⟨some (SilenceTracker.silenceStart s timestamp), s.last_speech_time,
        s.silence_detected⟩, false, 0)
  else
    (⟨none, if is_speech then timestamp else s.last_speech_time,
      s.silence_detected⟩, false, 0)

/-- The dict returned by `PhraseDetector.analyze_transcript` /
`_simple_phrase_detection`. -/
structure PhraseVerdict where
  is_greeting_end : Bool
  end_phrases_detected : List String
  beep_expected : Bool
  confidence : ℚ
deriving DecidableEq

/-- The all-false zero-confidence verdict used when the model is missing or the
transcript is blank, and as the controller's initial `phrase_result`. -/
def emptyVerdict : PhraseVerdict := ⟨false, [], false, 0⟩

/-- Substring occurrence on character lists (Python `pat in s`). -/
def subOccurs (p : List Char) : List Char → Bool
  | [] => p.isEmpty
  | c :: rest => p.isPrefixOf (c :: rest) || subOccurs p rest

def strContains (s pat : String) : Bool := subOccurs pat.data s.data

/-- Python `transcript.lower()`. -/
def strLower (s : String) : String := String.mk (s.data.map Char.toLower)

/-- Python `not transcript.strip()`: the transcript is all whitespace. -/
def strBlank (s : String) : Bool := s.data.all Char.isWhitespace

/-- The fixed phrase list of `_simple_phrase_detection`, in source order. -/
def PHRASES : List String :=
  ["after the beep", "after the tone", "at the tone",
   "leave a message", "leave your message", "leave message",
   "we\x27ll get back", "we will get back", "return your call"]

/-- Embedding of the keyword fallback `_simple_phrase_detection`. -/
def PhraseDetector.simple_phrase_detection (transcript : String) : PhraseVerdict :=
  { is_greeting_end :=
      0 < (PHRASES.filter (fun p => strContains (strLower transcript) p)).length
    end_phrases_detected := PHRASES.filter (fun p => strContains (strLower transcript) p)
    beep_expected := ["beep", "tone"].any (fun w => strContains (strLower transcript) w)
    confidence :=
      if 0 < (PHRASES.filter (fun p => strContains (strLower transcript) p)).length
      then 7/10 else 0 }

/-- The external text-understanding capability: `none` when no model is
configured (`self.model is None`); `some call` when configured, where
`call t = none` models the call raising or returning unparseable output and
`call t = some v` a successfully parsed verdict. -/
def Capability := Option (String → Option PhraseVerdict)

/-- Embedding of `PhraseDetector.analyze_transcript`: `if not self.model or not
transcript.strip()` return the zero verdict; on a call error fall back to
`_simple_phrase_detection`. -/
def PhraseDetector.analyze_transcript (model : Capability) (transcript : String) :
    PhraseVerdict :=
  match model with
  | none => emptyVerdict
  | some call =>
    if strBlank transcript then emptyVerdict
    else
      match call transcript with
      | some result => result
      | none => PhraseDetector.simple_phrase_detection transcript

/-- State of `STTDetector`: `full_transcript` starts `""` and is never written
(`process_audio` is a stub returning `""` and is never invoked). -/
structure STTState where
  full_transcript : String
deriving DecidableEq

def STTState.init : STTState := ⟨""⟩

def STTDetector.get_recent_transcript (s : STTState) : String := s.full_transcript

def beep_weight : ℚ := 2/5
def phrase_weight : ℚ := 3/10
def silence_weight : ℚ := 3/10

def FusionEngine.calculate_confidence (beep_conf phrase_conf silence_conf : ℚ) : ℚ :=
  beep_weight * beep_conf + phrase_weight * phrase_conf + silence_weight * silence_conf

/-- Shapes of the `details` dict placed in a `DetectionResult` by the three
construction sites. -/
inductive Details
  | fusion (beep_confidence phrase_confidence silence_confidence : ℚ)
      (phrases_detected : List String)
  | timeoutInfo
  | empty
deriving DecidableEq

structure DetectionResult where
  drop_timestamp : ℚ
  reason : String
  confidence : ℚ
  method_used : List String
  compliance_status : String
  details : Details
deriving DecidableEq

/-- Python `round(x, 2)` (ties aside, which no reachable value hits). -/
def round2 (q : ℚ) : ℚ := ((round (q * 100) : ℤ) : ℚ) / 100

/-- Embedding of `FusionEngine.make_decision`.  Python truthiness of `beep_timestamp` and
`drop_time` (a `None` or `0.0` value is falsy) is modelled explicitly. -/
def FusionEngine.make_decision (timestamp : ℚ) (beep_detected : Bool) (beep_conf : ℚ)
    (beep_timestamp : Option ℚ) (phrase_result : PhraseVerdict)
    (silence_detected : Bool) (silence_conf : ℚ) : Option DetectionResult :=
  let phrase_conf := phrase_result.confidence
  let total_confidence := FusionEngine.calculate_confidence beep_conf phrase_conf silence_conf
  let beepFires : Bool :=
    beep_detected && (match beep_timestamp with
      | none => false
      | some bt => decide (bt ≠ 0))
  let methods0 : List String := if beepFires then ["beep"] else []
  let reason0 : Option String := if beepFires then some "beep_detected" else none
  let drop0 : Option ℚ :=
    if beepFires then some (beep_timestamp.getD 0 + min_buffer_beep) else none
  let methods1 :=
    if phrase_result.is_greeting_end then methods0 ++ ["phrase"] else methods0
  let reason1 :=
    if phrase_result.is_greeting_end && reason0.isNone
    then some "phrase_detected" else reason0
  let methods2 := if silence_detected then methods1 ++ ["silence"] else methods1
  let reason2 :=
    if silence_detected && reason1.isNone then some "silence_detected" else reason1
  let drop2 :=
    if silence_detected && reason1.isNone
    then some (timestamp + min_buffer_silence) else drop0
  let dropTruthy : Bool :=
    match drop2 with
    | none => false
    | some d => decide (d ≠ 0)
  if confidence_threshold ≤ total_confidence ∧ dropTruthy = true then
    let d1 := if drop2.getD 0 < min_greeting_length then min_greeting_length else drop2.getD 0
    some { drop_timestamp :=
             round2 (if max_greeting_length < d1 then max_greeting_length else d1)
           reason := (if max_greeting_length < d1 then some "timeout" else reason2).getD ""
           confidence := round2 total_confidence
           method_used := methods2
           compliance_status :=
             if min_greeting_length ≤
                 (if max_greeting_length < d1 then max_greeting_length else d1)
             then "safe" else "risky"
           details := Details.fusion (round2 beep_conf) (round2 phrase_conf)
             (round2 silence_conf) phrase_result.end_phrases_detected }
  else none

/-- Loop state of `VoicemailDropDetector.process_file`.  `phrase_call_times`
is ghost instrumentation recording the (post-increment) timestamps at which
`analyze_transcript` is invoked; no other field reads it. -/
structure ProcState where
  timestamp : ℚ
  beep : BeepState
  silence : SilenceState
  stt : STTState
  beep_detected : Bool
  beep_conf : ℚ
  silence_detected : Bool
  silence_conf : ℚ
  phrase_result : PhraseVerdict
  phrase_call_times : List ℚ
deriving DecidableEq

def ProcState.init : ProcState :=
  ⟨0, BeepState.init, SilenceState.init, STTState.init, false, 0, false, 0, emptyVerdict, []⟩

/-- Python `int(timestamp * 2) != int((timestamp - chunk_duration) * 2)`; both
arguments are nonnegative at every use, where `int()` truncation equals
`⌊⌋`. -/
def evalGate (timestamp : ℚ) : Bool :=
  decide (⌊timestamp * 2⌋ ≠ ⌊(timestamp - chunk_duration) * 2⌋)

/-- Python `int(timestamp) % 2 == 0 and int(timestamp) > 0`. -/
def phraseGate (timestamp : ℚ) : Bool :=
  decide (⌊timestamp⌋ % 2 = 0 ∧ 0 < ⌊timestamp⌋)

/-- The timeout `DetectionResult` of `process_file`. -/
def timeoutResult : DetectionResult :=
  { drop_timestamp := max_greeting_length
    reason := "timeout"
    confidence := 1/2
    method_used := ["timeout"]
    compliance_status := "safe"
    details := Details.timeoutInfo }

/-- The end-of-file `DetectionResult` of `process_file`.  When
`beep_detected` the Python reads `get_last_beep() + 0.1`; `beep_detected`
implies the history is non-empty, so the `getD 0` default is never taken. -/
def end_of_file_result (st : ProcState) : DetectionResult :=
  { drop_timestamp :=
      max (if st.beep_detected
        then (BeepDetector.get_last_beep st.beep).getD 0 + min_buffer_beep
        else st.timestamp) min_greeting_length
    reason := "end_of_file"
    confidence := max st.beep_conf st.silence_conf
    method_used :=
      if st.beep_detected then ["beep"]
      else if st.silence_detected then ["silence"] else ["timeout"]
    compliance_status := "safe"
    details := Details.empty }

/-- Per-chunk detector updates and timestamp increment of the loop body of
`process_file` (VAD verdict consumed, beep and silence detectors advanced,
`beep_detected`/`beep_conf`/`silence_detected`/`silence_conf` accumulated,
`timestamp += chunk_duration`). -/
def detectorUpdate (st : ProcState) (c : ChunkFeat) : ProcState :=
  { timestamp := st.timestamp + chunk_duration
    beep := (BeepDetector.analyze_chunk st.beep c.beep_energy st.timestamp).1
    silence := (SilenceTracker.analyze_chunk st.silence c.rms_db st.timestamp c.is_speech).1
    stt := st.stt
    beep_detected := st.beep_detected ||
      (BeepDetector.analyze_chunk st.beep c.beep_energy st.timestamp).2.1
    beep_conf :=
      if (BeepDetector.analyze_chunk st.beep c.beep_energy st.timestamp).2.1
      then max st.beep_conf (BeepDetector.analyze_chunk st.beep c.beep_energy st.timestamp).2.2
      else st.beep_conf
    silence_detected := st.silence_detected ||
      (SilenceTracker.analyze_chunk st.silence c.rms_db st.timestamp c.is_speech).2.1
    silence_conf :=
      if (SilenceTracker.analyze_chunk st.silence c.rms_db st.timestamp c.is_speech).2.1
      then max st.silence_conf
        (SilenceTracker.analyze_chunk st.silence c.rms_db st.timestamp c.is_speech).2.2
      else st.silence_conf
    phrase_result := st.phrase_result
    phrase_call_times := st.phrase_call_times }

/-- The phrase cadence inside the 0.5 s decision cadence: `if int(timestamp)
% 2 == 0 and int(timestamp) > 0`, refresh `phrase_result` from
`analyze_transcript` on the current transcript (always `""`, see
`STTState`). -/
def phraseUpdate (model : Capability) (st1 : ProcState) : ProcState :=
  if phraseGate st1.timestamp then
    { st1 with
        phrase_result := PhraseDetector.analyze_transcript model
          (STTDetector.get_recent_transcript st1.stt)
        phrase_call_times := st1.phrase_call_times ++ [st1.timestamp] }
  else st1

/-- One iteration of the `async for chunk` loop body of `process_file`:
detector updates, timestamp increment, the 0.5 s decision cadence (with the
phrase cadence inside it), and the timeout check.  Returns `some result` on
an early return, else `none` and the updated state. -/
def stepChunk (model : Capability) (st : ProcState) (c : ChunkFeat) :
    Option DetectionResult × ProcState :=
  let st1 := detectorUpdate st c
  if evalGate st1.timestamp then
    let st2 := phraseUpdate model st1
    match FusionEngine.make_decision st1.timestamp st2.beep_detected st2.beep_conf
        (BeepDetector.get_last_beep st2.beep) st2.phrase_result
        st2.silence_detected st2.silence_conf with
    | some decision => (some decision, st2)
    | none =>
      if max_greeting_length < st1.timestamp then (some timeoutResult, st2) else (none, st2)
  else
    if max_greeting_length < st1.timestamp then (some timeoutResult, st1) else (none, st1)

/-- The chunk loop of `process_file`, also exposing the final loop state. -/
def processChunksSt (model : Capability) :
    ProcState → List ChunkFeat → DetectionResult × ProcState
  | st, [] => (end_of_file_result st, st)
  | st, c :: rest =>
    match stepChunk model st c with
    | (some r, st2) => (r, st2)
    | (none, st2) => processChunksSt model st2 rest

/-- Embedding of `VoicemailDropDetector.process_file` on a chunk stream, from freshly
constructed detectors. -/
def process_file (model : Capability) (chunks : List ChunkFeat) : DetectionResult :=
  (processChunksSt model ProcState.init chunks).1

/-- Timestamps at which the controller invoked `analyze_transcript`. -/
def phrase_calls (model : Capability) (chunks : List ChunkFeat) : List ℚ :=
  (processChunksSt model ProcState.init chunks).2.phrase_call_times

/-- The proposition that `process_file model chunks` returned `r` (used to state determinism). -/
def Produces (model : Capability) (chunks : List ChunkFeat) (r : DetectionResult) : Prop :=
  process_file model chunks = r

/- Concrete streams used as witnesses and counterexamples. -/

/-- A silent non-speech chunk: -60 dB everywhere. -/
def quietChunk : ChunkFeat := ⟨false, -60, -60⟩

/-- A loud in-band tone chunk: in-band peak -10 dB (threshold + 10 dB),
classified as speech by the VAD. -/
def beepChunk : ChunkFeat := ⟨true, -10, -10⟩

/-- A stream of 151 chunks: quiet until t=2.82 s, then a 10-chunk beep run confirming at
t = 3.0 s. -/
def c2stream : List ChunkFeat :=
  List.replicate 141 quietChunk ++ List.replicate 10 beepChunk

/-- A stream of 1500 chunks: quiet until t=29.8 s, then a 10-chunk beep run confirming at
t = 29.98 s, with the stream ending exactly at the 30 s mark. -/
def c1stream : List ChunkFeat :=
  List.replicate 1490 quietChunk ++ List.replicate 10 beepChunk

def vmTranscript : String := "please leave a message after the tone"

/-- Loop state during an all-quiet stretch: `k` chunks consumed, silence
started at `s`, no speech seen, no detections, call log `C`. -/
def Sq (k : ℕ) (s : ℚ) (C : List ℚ) : ProcState :=
  ⟨(k : ℚ)/50, ⟨[], []⟩, ⟨some s, 0, false⟩, STTState.init,
    false, 0, false, 0, emptyVerdict, C⟩

/-- Phrase-analysis invocation times accumulated over `n` chunks following
chunk index `k`. -/
def gateTimes (k : ℕ) : ℕ → List ℚ
  | 0 => []
  | n+1 =>
    (if evalGate (((k+1 : ℕ) : ℚ)/50) && phraseGate (((k+1 : ℕ) : ℚ)/50)
      then [(((k+1 : ℕ) : ℚ)/50)] else []) ++ gateTimes (k+1) n

/-- Step-preserved part of the loop-state invariant of `process_file`. -/
structure PreInv (st : ProcState) : Prop where
  bc0 : 0 ≤ st.beep_conf
  bc1 : st.beep_conf ≤ 1
  sc0 : 0 ≤ st.silence_conf
  sc1 : st.silence_conf ≤ 1
  ph : st.phrase_result = emptyVerdict
  stt : st.stt = STTState.init
  beeps : ∀ b ∈ st.beep.beep_timestamps, b + chunk_duration ≤ st.timestamp
  bne : st.beep_detected = true → st.beep.beep_timestamps ≠ []

/-- Full invariant: the loop is re-entered only while the timestamp has not
passed the timeout bound. -/
def Inv (st : ProcState) : Prop := PreInv st ∧ st.timestamp ≤ max_greeting_length

/-- The beep-detector state after feeding the first `n` chunks of the peak
stream `p` (chunk `n` carries in-band peak `p n` and timestamp
`n * chunk_duration`, as in the controller). -/
def beepStateAt (p : ℕ → ℚ) : ℕ → BeepState
  | 0 => BeepState.init
  | n+1 => (BeepDetector.analyze_chunk (beepStateAt p n) (p n) ((n : ℚ) * chunk_duration)).1

/-- Whether the detector confirms a beep on chunk `n` of the stream `p`. -/
def beepConfirmAt (p : ℕ → ℚ) (n : ℕ) : Bool :=
  (BeepDetector.analyze_chunk (beepStateAt p n) (p n) ((n : ℚ) * chunk_duration)).2.1

/-- The confidence the detector reports on chunk `n` of the stream `p`. -/
def beepConfAt (p : ℕ → ℚ) (n : ℕ) : ℚ :=
  (BeepDetector.analyze_chunk (beepStateAt p n) (p n) ((n : ℚ) * chunk_duration)).2.2

/-- Length of the maximal qualifying run among the first `n` chunks ending at
chunk `n - 1`. -/
def beepRunLen (p : ℕ → ℚ) : ℕ → ℕ
  | 0 => 0
  | n+1 => if BEEP_ENERGY_THRESHOLD < p n then beepRunLen p n + 1 else 0

/- ------------------------------------------------------------------ -/
/- Helper lemmas                                                      -/
/- ------------------------------------------------------------------ -/

/-- A blank transcript always yields the zero verdict, for every capability
configuration; in particular the controller, whose transcript is always `""`,
never obtains a non-zero phrase verdict. -/
lemma analyze_transcript_blank (model : Capability) :
    PhraseDetector.analyze_transcript model "" = emptyVerdict := by
  cases model <;> rfl

/-- With neither a confirmed beep nor an active silence signal,
`make_decision` never sets `drop_time`, hence returns `none`. -/
lemma make_decision_no_signals (t bc : ℚ) (bt : Option ℚ) (pv : PhraseVerdict) (sc : ℚ) :
    FusionEngine.make_decision t false bc bt pv false sc = none := by
  simp [FusionEngine.make_decision]

/- ------------------------------------------------------------------ -/
/- Claim theorems                                                     -/
/- ------------------------------------------------------------------ -/

/-- C3 (counterexample): with the external capability disabled (no model
configured), `analyze_transcript` on "please leave a message after the tone"
returns the zero verdict - `is_greeting_end = false`, no phrases, confidence
0 - and not the keyword-fallback verdict the claim asserts. -/
theorem C3_counterexample :
    (PhraseDetector.analyze_transcript none vmTranscript).is_greeting_end = false ∧
    (PhraseDetector.analyze_transcript none vmTranscript).end_phrases_detected = [] ∧
    (PhraseDetector.analyze_transcript none vmTranscript).confidence = 0 :=
  ⟨rfl, rfl, rfl⟩

/-- C3 (amended): the keyword fallback applied to "please leave a message
after the tone" reports `is_greeting_end = true`, detected phrases exactly
["after the tone", "leave a message"] and confidence 0.7; `analyze_transcript`
reaches this fallback when a model is configured but the external call fails,
while a disabled model short-circuits to the zero verdict. -/
theorem C3_fallback_keyword_detection :
    PhraseDetector.simple_phrase_detection vmTranscript =
      ⟨true, ["after the tone", "leave a message"], true, 7/10⟩ ∧
    (∀ call : String → Option PhraseVerdict, call vmTranscript = none →
      PhraseDetector.analyze_transcript (some call) vmTranscript =
        PhraseDetector.simple_phrase_detection vmTranscript) := by
  constructor
  · decide
  · intro call hcall
    simp [PhraseDetector.analyze_transcript, hcall,
      show strBlank vmTranscript = false from by decide]

/-- Witness for C3: a configured capability whose call errors falls back to
the keyword verdict on the concrete transcript. -/
theorem C3_fallback_witness :
    PhraseDetector.analyze_transcript (some fun _ => none) vmTranscript =
      ⟨true, ["after the tone", "leave a message"], true, 7/10⟩ := by
  rw [C3_fallback_keyword_detection.2 (fun _ => none) rfl,
    C3_fallback_keyword_detection.1]

/-- C4: if no beep has been confirmed and the silence signal is not active,
`make_decision` returns no decision, for every timestamp, every confidence
value and every phrase verdict (in particular one with
`is_greeting_end = true` and weighted total above the threshold): a
phrase-only verdict never sets a candidate drop time. -/
theorem C4_phrase_only_never_decides (timestamp beep_conf : ℚ)
    (beep_timestamp : Option ℚ) (phrase_result : PhraseVerdict) (silence_conf : ℚ) :
    FusionEngine.make_decision timestamp false beep_conf beep_timestamp phrase_result
      false silence_conf = none :=
  make_decision_no_signals timestamp beep_conf beep_timestamp phrase_result silence_conf

/-- C9: processing is deterministic - two runs of the identical chunk
sequence with the same capability configuration produce equal results. -/
theorem C9_deterministic (model : Capability) (chunks : List ChunkFeat)
    (r1 r2 : DetectionResult) (h1 : Produces model chunks r1)
    (h2 : Produces model chunks r2) : r1 = r2 :=
  h1.symm.trans h2

/-- Witness for C9 at the empty stream. -/
theorem C9_witness :
    Produces none [] (end_of_file_result ProcState.init) ∧
    end_of_file_result ProcState.init = end_of_file_result ProcState.init :=
  ⟨rfl, C9_deterministic none [] _ _ rfl rfl⟩

set_option maxRecDepth 400000 in
/-- C5 (code evaluation at the failing input): on a 125-chunk (2.5 s) silent
stream the controller invokes `analyze_transcript` at t = 2.0 s and again at
t = 2.5 s - two invocations 0.5 s (< 2 s) apart, both within integer second
2 - contradicting the claimed once-per-2-seconds / once-per-integer-second
cadence. -/
theorem C5_cadence_code_evaluation :
    phrase_calls none (List.replicate 125 quietChunk) = [2, 5/2] ∧
    (5/2 : ℚ) - 2 < 2 ∧ ⌊(2 : ℚ)⌋ = ⌊(5/2 : ℚ)⌋ :=
  ⟨by decide, by norm_num, by decide⟩

set_option maxRecDepth 400000 in
/-- C2 (counterexample): on a stream whose only beep run is 10 consecutive
chunks at threshold + 10 dB confirming at t = 3.0 s, with no earlier
disqualifying event and the stream ending there, the returned result has
reason "end_of_file" - not "beep_detected" as the claim asserts - though its
drop timestamp is indeed 3.0 + min_buffer_beep. -/
theorem C2_counterexample :
    (process_file none c2stream).reason ≠ "beep_detected" ∧
    (process_file none c2stream).reason = "end_of_file" ∧
    (process_file none c2stream).drop_timestamp = 3 + min_buffer_beep := by
  have h : process_file none c2stream =
      ⟨31/10, "end_of_file", 1/2, ["beep"], "safe", Details.empty⟩ := by decide
  rw [h]
  refine ⟨by decide, rfl, by decide⟩

set_option maxRecDepth 400000 in
/-- C2 (amended): the fusion threshold 0.8 is unreachable without phrase
confidence (at most 0.4*beep + 0.3*silence = 0.7, and the transcript is
always empty), so the beep fixes the timestamp only through the end-of-file
path: the run confirming at t = 3.0 s yields drop_timestamp = 3.1 s with
reason "end_of_file" and methods ["beep"]. -/
theorem C2_beep_run_end_of_file :
    process_file none c2stream =
      ⟨3 + min_buffer_beep, "end_of_file", 1/2, ["beep"], "safe", Details.empty⟩ := by
  decide

/-- The beep confidence emitted by `analyze_chunk` lies in [0, 1]. -/
lemma beep_conf_bounds (s : BeepState) (e t : ℚ) :
    0 ≤ (BeepDetector.analyze_chunk s e t).2.2 ∧ (BeepDetector.analyze_chunk s e t).2.2 ≤ 1 := by
  unfold BeepDetector.analyze_chunk
  by_cases he : BEEP_ENERGY_THRESHOLD < e
  · by_cases hl : beep_run_chunks ≤ s.beep_buffer.length + 1
    · simp only [he, if_true, List.length_append, List.length_singleton, hl, if_pos]
      exact ⟨le_min (by norm_num) (div_nonneg (by linarith) (by norm_num)), min_le_left _ _⟩
    · simp [he, hl]
  · simp [he]

/-- The silence confidence emitted by `analyze_chunk` lies in [0, 1]. -/
lemma silence_conf_bounds (s : SilenceState) (r t : ℚ) (sp : Bool) :
    0 ≤ (SilenceTracker.analyze_chunk s r t sp).2.2 ∧
    (SilenceTracker.analyze_chunk s r t sp).2.2 ≤ 1 := by
  unfold SilenceTracker.analyze_chunk
  by_cases hs : r < SILENCE_THRESHOLD_DB ∧ sp = false
  · by_cases hd : SILENCE_DURATION_THRESHOLD ≤ t - SilenceTracker.silenceStart s t ∧
        0 < s.last_speech_time
    · simp only [hs, hd, if_true, if_pos]
      have h0 : (0:ℚ) ≤ t - SilenceTracker.silenceStart s t := by
        have := hd.1
        simp only [SILENCE_DURATION_THRESHOLD] at this
        linarith
      exact ⟨le_min (by norm_num)
        (div_nonneg h0 (by norm_num [SILENCE_DURATION_THRESHOLD])), min_le_left _ _⟩
    · simp [hs, hd]
  · simp [hs]

/-- The beep detector either leaves the beep history unchanged (and reports no
beep) or appends exactly the chunk timestamp (and then reports a beep iff
the run filled). -/
lemma beep_timestamps_spec (s : BeepState) (e t : ℚ) :
    ((BeepDetector.analyze_chunk s e t).2.1 = true ∧
      (BeepDetector.analyze_chunk s e t).1.beep_timestamps = s.beep_timestamps ++ [t]) ∨
    ((BeepDetector.analyze_chunk s e t).2.1 = false ∧
      (BeepDetector.analyze_chunk s e t).1.beep_timestamps = s.beep_timestamps) := by
  unfold BeepDetector.analyze_chunk
  by_cases he : BEEP_ENERGY_THRESHOLD < e
  · by_cases hl : beep_run_chunks ≤ s.beep_buffer.length + 1
    · left; simp [he, hl]
    · right; simp [he, hl]
  · right; simp [he]

/-- With the zero phrase verdict and detector confidences at most 1, the
weighted total is at most 0.4 + 0.3 = 0.7 < 0.8 and `make_decision` returns
`none`: the fusion threshold is unreachable on an empty transcript. -/
lemma make_decision_bounded_none (t : ℚ) (bd : Bool) (bc : ℚ) (bt : Option ℚ)
    (sd : Bool) (sc : ℚ) (hbc : bc ≤ 1) (hsc : sc ≤ 1) :
    FusionEngine.make_decision t bd bc bt emptyVerdict sd sc = none := by
  have hlt : ¬ confidence_threshold ≤
      FusionEngine.calculate_confidence bc emptyVerdict.confidence sc := by
    simp only [FusionEngine.calculate_confidence, emptyVerdict, beep_weight,
      phrase_weight, silence_weight, confidence_threshold]
    intro hcon
    norm_num at hcon
    linarith
  simp [FusionEngine.make_decision, hlt]

lemma chunk_duration_pos : (0 : ℚ) < chunk_duration := by
  norm_num [chunk_duration, CHUNK_DURATION_MS]

/-- The detector update preserves the step-preserved invariant. -/
lemma preInv_detectorUpdate (st : ProcState) (c : ChunkFeat) (h : PreInv st) :
    PreInv (detectorUpdate st c) := by
  have hbb := beep_conf_bounds st.beep c.beep_energy st.timestamp
  have hsb := silence_conf_bounds st.silence c.rms_db st.timestamp c.is_speech
  have hbts := beep_timestamps_spec st.beep c.beep_energy st.timestamp
  have hcd := chunk_duration_pos
  constructor
  · by_cases hb : (BeepDetector.analyze_chunk st.beep c.beep_energy st.timestamp).2.1 = true <;>
      simp [detectorUpdate, hb, le_max_iff, h.bc0]
  · by_cases hb : (BeepDetector.analyze_chunk st.beep c.beep_energy st.timestamp).2.1 = true <;>
      simp [detectorUpdate, hb, max_le_iff, h.bc1, hbb.2]
  · by_cases hs : (SilenceTracker.analyze_chunk st.silence c.rms_db st.timestamp
        c.is_speech).2.1 = true <;>
      simp [detectorUpdate, hs, le_max_iff, h.sc0]
  · by_cases hs : (SilenceTracker.analyze_chunk st.silence c.rms_db st.timestamp
        c.is_speech).2.1 = true <;>
      simp [detectorUpdate, hs, max_le_iff, h.sc1, hsb.2]
  · exact h.ph
  · exact h.stt
  · intro b hb
    simp only [detectorUpdate] at hb ⊢
    rcases hbts with ⟨-, heq⟩ | ⟨-, heq⟩ <;> rw [heq] at hb
    · rcases List.mem_append.mp hb with hold | hnew
      · have := h.beeps b hold
        linarith
      · rcases List.mem_singleton.mp hnew with rfl
        linarith
    · have := h.beeps b hb
      linarith
  · intro hbd
    simp only [detectorUpdate, Bool.or_eq_true] at hbd ⊢
    rcases hbts with ⟨hc, heq⟩ | ⟨hc, heq⟩ <;> rw [heq]
    · simp
    · rcases hbd with hold | hchunk
      · exact h.bne hold
      · rw [hc] at hchunk
        exact absurd hchunk (by simp)

lemma phraseUpdate_timestamp (model : Capability) (st1 : ProcState) :
    (phraseUpdate model st1).timestamp = st1.timestamp := by
  unfold phraseUpdate
  split <;> rfl

/-- The phrase cadence preserves the step-preserved invariant: the transcript
is always blank, so the refreshed verdict is again the zero verdict. -/
lemma preInv_phraseUpdate (model : Capability) (st1 : ProcState) (h : PreInv st1) :
    PreInv (phraseUpdate model st1) := by
  unfold phraseUpdate
  split
  · refine ⟨h.bc0, h.bc1, h.sc0, h.sc1, ?_, h.stt, h.beeps, h.bne⟩
    show PhraseDetector.analyze_transcript model
      (STTDetector.get_recent_transcript st1.stt) = emptyVerdict
    rw [h.stt]
    exact analyze_transcript_blank model
  · exact h

lemma phraseUpdate_fields (model : Capability) (st1 : ProcState) :
    (phraseUpdate model st1).beep_detected = st1.beep_detected ∧
    (phraseUpdate model st1).beep_conf = st1.beep_conf ∧
    (phraseUpdate model st1).silence_detected = st1.silence_detected ∧
    (phraseUpdate model st1).silence_conf = st1.silence_conf ∧
    (phraseUpdate model st1).beep = st1.beep ∧
    (phraseUpdate model st1).silence = st1.silence := by
  unfold phraseUpdate
  split <;> simp

/-- One loop iteration from an invariant state either continues with the
invariant re-established, or returns early with the timeout result; the
timestamp always advances by one chunk duration. -/
lemma stepChunk_spec (model : Capability) (st : ProcState) (c : ChunkFeat) (h : Inv st) :
    ((stepChunk model st c).1 = none → Inv (stepChunk model st c).2) ∧
    (∀ r, (stepChunk model st c).1 = some r → r = timeoutResult) ∧
    (stepChunk model st c).2.timestamp = st.timestamp + chunk_duration := by
  obtain ⟨hpre, -⟩ := h
  have h1 : PreInv (detectorUpdate st c) := preInv_detectorUpdate st c hpre
  have h2 : PreInv (phraseUpdate model (detectorUpdate st c)) :=
    preInv_phraseUpdate model _ h1
  have hts1 : (detectorUpdate st c).timestamp = st.timestamp + chunk_duration := rfl
  have hts2 : (phraseUpdate model (detectorUpdate st c)).timestamp =
      st.timestamp + chunk_duration := by rw [phraseUpdate_timestamp, hts1]
  have hmd : FusionEngine.make_decision (detectorUpdate st c).timestamp
      (phraseUpdate model (detectorUpdate st c)).beep_detected
      (phraseUpdate model (detectorUpdate st c)).beep_conf
      (BeepDetector.get_last_beep (phraseUpdate model (detectorUpdate st c)).beep)
      (phraseUpdate model (detectorUpdate st c)).phrase_result
      (phraseUpdate model (detectorUpdate st c)).silence_detected
      (phraseUpdate model (detectorUpdate st c)).silence_conf = none := by
    rw [h2.ph]
    exact make_decision_bounded_none _ _ _ _ _ _ h2.bc1 h2.sc1
  simp only [stepChunk]
  by_cases hg : evalGate (detectorUpdate st c).timestamp = true
  · rw [if_pos hg, hmd]
    by_cases ht : max_greeting_length < (detectorUpdate st c).timestamp
    · rw [if_pos ht]
      exact ⟨by simp, fun r hr => by simpa using hr.symm, hts2⟩
    · rw [if_neg ht]
      exact ⟨fun _ => ⟨h2, by rw [hts2, ← hts1]; exact le_of_not_lt ht⟩,
        fun r hr => by simp at hr, hts2⟩
  · rw [if_neg hg]
    by_cases ht : max_greeting_length < (detectorUpdate st c).timestamp
    · rw [if_pos ht]
      exact ⟨by simp, fun r hr => by simpa using hr.symm, hts1⟩
    · rw [if_neg ht]
      exact ⟨fun _ => ⟨h1, le_of_not_lt ht⟩, fun r hr => by simp at hr, hts1⟩

lemma Inv_init : Inv ProcState.init := by
  constructor
  · constructor <;>
      simp [ProcState.init, BeepState.init, emptyVerdict]
  · norm_num [ProcState.init, max_greeting_length]

lemma chunk_duration_eq : chunk_duration = 1/50 := by
  norm_num [chunk_duration, CHUNK_DURATION_MS]

/-- Every run from an invariant state ends in the timeout result or in an
end-of-file result built from an invariant state. -/
lemma processChunksSt_cases (model : Capability) :
    ∀ (cs : List ChunkFeat) (st : ProcState), Inv st →
      (processChunksSt model st cs).1 = timeoutResult ∨
      ∃ st2, Inv st2 ∧ (processChunksSt model st cs).1 = end_of_file_result st2 := by
  intro cs
  induction cs with
  | nil =>
    intro st h
    exact Or.inr ⟨st, h, rfl⟩
  | cons c rest ih =>
    intro st h
    obtain ⟨hcont, hsome, -⟩ := stepChunk_spec model st c h
    rcases hq : stepChunk model st c with ⟨o, st2⟩
    rw [hq] at hcont hsome
    cases o with
    | some r =>
      left
      have hr : r = timeoutResult := hsome r rfl
      simp [processChunksSt, hq, hr]
    | none =>
      have hinv : Inv st2 := hcont rfl
      simpa [processChunksSt, hq] using ih st2 hinv

/-- Field bounds of the end-of-file result from an invariant state.  The
drop timestamp can exceed `max_greeting_length` by up to
`min_buffer_beep - chunk_duration` (a beep on the final chunk). -/
lemma end_of_file_props (st : ProcState) (h : Inv st) :
    min_greeting_length ≤ (end_of_file_result st).drop_timestamp ∧
    (end_of_file_result st).drop_timestamp ≤
      max_greeting_length + (min_buffer_beep - chunk_duration) ∧
    0 ≤ (end_of_file_result st).confidence ∧
    (end_of_file_result st).confidence ≤ 1 ∧
    (end_of_file_result st).method_used ≠ [] ∧
    (end_of_file_result st).compliance_status = "safe" ∧
    (end_of_file_result st).reason = "end_of_file" := by
  obtain ⟨hpre, hts⟩ := h
  have hcd := chunk_duration_eq
  refine ⟨le_max_right _ _, ?_, ?_, ?_, ?_, rfl, rfl⟩
  · show max _ _ ≤ _
    apply max_le
    · by_cases hbd : st.beep_detected = true
      · rw [if_pos hbd]
        have hne := hpre.bne hbd
        rw [BeepDetector.get_last_beep, List.getLast?_eq_getLast _ hne, Option.getD_some]
        have hmem := List.getLast_mem hne
        have hb := hpre.beeps _ hmem
        rw [hcd] at hb
        rw [hcd]
        norm_num [max_greeting_length, min_buffer_beep] at hts ⊢
        linarith
      · rw [if_neg hbd]
        rw [hcd]
        norm_num [max_greeting_length, min_buffer_beep] at hts ⊢
        linarith
    · rw [hcd]
      norm_num [min_greeting_length, max_greeting_length, min_buffer_beep]
  · exact le_max_of_le_left hpre.bc0
  · exact max_le hpre.bc1 hpre.sc1
  · show (if st.beep_detected then ["beep"]
      else if st.silence_detected then ["silence"] else ["timeout"]) ≠ []
    split
    · simp
    · split <;> simp

/-- Bounds on every result of `process_file`: the drop timestamp is at least
`min_greeting_length` and at most `max_greeting_length + (min_buffer_beep -
chunk_duration)` = 30.08 s, the confidence is in [0, 1], the method list is
non-empty, the compliance status is "safe", and the reason is "timeout" or
"end_of_file" (the fusion threshold is unreachable, see
`make_decision_bounded_none`). -/
lemma run_props (model : Capability) (cs : List ChunkFeat) :
    min_greeting_length ≤ (process_file model cs).drop_timestamp ∧
    (process_file model cs).drop_timestamp ≤
      max_greeting_length + (min_buffer_beep - chunk_duration) ∧
    0 ≤ (process_file model cs).confidence ∧
    (process_file model cs).confidence ≤ 1 ∧
    (process_file model cs).method_used ≠ [] ∧
    (process_file model cs).compliance_status = "safe" ∧
    ((process_file model cs).reason = "timeout" ∨
      (process_file model cs).reason = "end_of_file") := by
  unfold process_file
  rcases processChunksSt_cases model cs ProcState.init Inv_init with heq | ⟨st2, hinv, heq⟩
  · rw [heq]
    refine ⟨?_, ?_, ?_, ?_, ?_, rfl, Or.inl rfl⟩ <;>
      norm_num [timeoutResult, min_greeting_length, max_greeting_length,
        min_buffer_beep, chunk_duration, CHUNK_DURATION_MS]
  · rw [heq]
    obtain ⟨g1, g2, g3, g4, g5, g6, g7⟩ := end_of_file_props st2 hinv
    exact ⟨g1, g2, g3, g4, g5, g6, Or.inr g7⟩

/-- C1 (amended): every returned result satisfies
`min_greeting_length ≤ drop_timestamp`, `confidence ∈ [0, 1]` and a
non-empty `methods_used`; the upper bound however is
`max_greeting_length + (min_buffer_beep - chunk_duration)` = 30.08 s, not
`max_greeting_length`: the end-of-file path adds `min_buffer_beep` to a last
beep timestamp (at most 29.98 s) without the 30 s clamp. -/
theorem C1_result_field_bounds (model : Capability) (chunks : List ChunkFeat) :
    min_greeting_length ≤ (process_file model chunks).drop_timestamp ∧
    (process_file model chunks).drop_timestamp ≤
      max_greeting_length + (min_buffer_beep - chunk_duration) ∧
    0 ≤ (process_file model chunks).confidence ∧
    (process_file model chunks).confidence ≤ 1 ∧
    (process_file model chunks).method_used ≠ [] := by
  obtain ⟨g1, g2, g3, g4, g5, -, -⟩ := run_props model chunks
  exact ⟨g1, g2, g3, g4, g5⟩

/-- C10: every result returned by `process_file` has
`compliance_status = "safe"`: the timeout and end-of-file paths set it
unconditionally, and the fusion path (which raises the drop time to
`min_greeting_length` before the safe/risky comparison) never returns at
all, so "risky" is unreachable at the public interface. -/
theorem C10_always_safe (model : Capability) (chunks : List ChunkFeat) :
    (process_file model chunks).compliance_status = "safe" :=
  (run_props model chunks).2.2.2.2.2.1

/-- A silence-tracker step with a non-speech chunk keeps
`last_speech_time = 0` and reports no silence signal. -/
lemma silence_no_speech (s : SilenceState) (r t : ℚ) (hl : s.last_speech_time = 0) :
    (SilenceTracker.analyze_chunk s r t false).1.last_speech_time = 0 ∧
    (SilenceTracker.analyze_chunk s r t false).2.1 = false := by
  unfold SilenceTracker.analyze_chunk
  by_cases hs : r < SILENCE_THRESHOLD_DB ∧ (false : Bool) = false
  · rw [if_pos hs, if_neg]
    · exact ⟨hl, rfl⟩
    · rintro ⟨-, hpos⟩
      rw [hl] at hpos
      exact lt_irrefl _ hpos
  · rw [if_neg hs]
    exact ⟨by simp [hl], rfl⟩

/-- The state returned by one loop iteration is the detector update, possibly
phrase-refreshed. -/
lemma stepChunk_state (model : Capability) (st : ProcState) (c : ChunkFeat) :
    (stepChunk model st c).2 = detectorUpdate st c ∨
    (stepChunk model st c).2 = phraseUpdate model (detectorUpdate st c) := by
  simp only [stepChunk]
  by_cases hg : evalGate (detectorUpdate st c).timestamp = true
  · rw [if_pos hg]
    right
    split
    · rfl
    · split <;> rfl
  · rw [if_neg hg]
    left
    split <;> rfl

/-- A loop iteration on a non-speech chunk keeps `last_speech_time = 0` and
leaves the silence flag unset. -/
lemma stepChunk_no_speech (model : Capability) (st : ProcState) (c : ChunkFeat)
    (hc : c.is_speech = false) (h1 : st.silence.last_speech_time = 0)
    (h2 : st.silence_detected = false) :
    (stepChunk model st c).2.silence.last_speech_time = 0 ∧
    (stepChunk model st c).2.silence_detected = false := by
  have hs : (SilenceTracker.analyze_chunk st.silence c.rms_db st.timestamp
        c.is_speech).1.last_speech_time = 0 ∧
      (SilenceTracker.analyze_chunk st.silence c.rms_db st.timestamp
        c.is_speech).2.1 = false := by
    rw [hc]
    exact silence_no_speech st.silence c.rms_db st.timestamp h1
  have hdu : (detectorUpdate st c).silence.last_speech_time = 0 ∧
      (detectorUpdate st c).silence_detected = false := by
    refine ⟨hs.1, ?_⟩
    show (st.silence_detected || _) = false
    rw [h2, hs.2]
    rfl
  rcases stepChunk_state model st c with heq | heq <;> rw [heq]
  · exact hdu
  · obtain ⟨-, -, hsd, -, -, hsil⟩ := phraseUpdate_fields model (detectorUpdate st c)
    rw [hsd, hsil]
    exact ⟨hdu.1, hdu.2⟩

/-- Over a stream with no speech-classified chunk, the silence tracker never
fires and the controller's silence flag stays unset. -/
lemma run_no_speech (model : Capability) :
    ∀ (cs : List ChunkFeat) (st : ProcState), (∀ c ∈ cs, c.is_speech = false) →
      st.silence.last_speech_time = 0 → st.silence_detected = false →
      (processChunksSt model st cs).2.silence.last_speech_time = 0 ∧
      (processChunksSt model st cs).2.silence_detected = false := by
  intro cs
  induction cs with
  | nil =>
    intro st _ h1 h2
    exact ⟨h1, h2⟩
  | cons c rest ih =>
    intro st hcs h1 h2
    have hstep := stepChunk_no_speech model st c (hcs c (by simp)) h1 h2
    rcases hq : stepChunk model st c with ⟨o, st2⟩
    rw [hq] at hstep
    cases o with
    | some r => simpa [processChunksSt, hq] using hstep
    | none =>
      have := ih st2 (fun c hc => hcs c (by simp [hc])) hstep.1 hstep.2
      simpa [processChunksSt, hq] using this

/-- C6: on a stream in which no chunk is classified as speech
(`last_speech_time` never leaves 0), the silence tracker never reports the
silence signal active - the controller's `silence_detected` flag stays false
however long the audio is silent - and the returned result's reason is never
"silence_detected". -/
theorem C6_silence_needs_prior_speech (model : Capability) (chunks : List ChunkFeat)
    (h : ∀ c ∈ chunks, c.is_speech = false) :
    (processChunksSt model ProcState.init chunks).2.silence_detected = false ∧
    (process_file model chunks).reason ≠ "silence_detected" := by
  refine ⟨(run_no_speech model chunks ProcState.init h rfl rfl).2, ?_⟩
  rcases (run_props model chunks).2.2.2.2.2.2 with hr | hr <;> rw [hr] <;> decide

/-- Witness for C6: a 2-second fully silent stream. -/
theorem C6_witness :
    (∀ c ∈ List.replicate 100 quietChunk, c.is_speech = false) ∧
    (processChunksSt none ProcState.init
      (List.replicate 100 quietChunk)).2.silence_detected = false ∧
    (process_file none (List.replicate 100 quietChunk)).reason ≠ "silence_detected" := by
  have hcs : ∀ c ∈ List.replicate 100 quietChunk, c.is_speech = false := by
    intro c hc
    rw [List.eq_of_mem_replicate hc]
    rfl
  exact ⟨hcs, (C6_silence_needs_prior_speech none _ hcs).1,
    (C6_silence_needs_prior_speech none _ hcs).2⟩

/-- A run whose chunk budget pushes the timestamp past `max_greeting_length`
returns the timeout result (the fusion engine never pre-empts it). -/
lemma timeout_run (model : Capability) :
    ∀ (cs : List ChunkFeat) (k : ℕ) (st : ProcState), Inv st →
      st.timestamp = (k : ℚ)/50 → 1500 < k + cs.length →
      (processChunksSt model st cs).1 = timeoutResult := by
  intro cs
  induction cs with
  | nil =>
    intro k st hinv hts hk
    exfalso
    have h30 := hinv.2
    rw [hts, max_greeting_length] at h30
    have hq : (k : ℚ) ≤ 1500 := by linarith
    have hk15 : k ≤ 1500 := by exact_mod_cast hq
    simp only [List.length_nil, Nat.add_zero] at hk
    omega
  | cons c rest ih =>
    intro k st hinv hts hk
    obtain ⟨hcont, hsome, htsstep⟩ := stepChunk_spec model st c hinv
    rcases hq : stepChunk model st c with ⟨o, st2⟩
    rw [hq] at hcont hsome htsstep
    cases o with
    | some r =>
      have hr : r = timeoutResult := hsome r rfl
      simp [processChunksSt, hq, hr]
    | none =>
      have hinv2 : Inv st2 := hcont rfl
      have hts2 : st2.timestamp = ((k+1 : ℕ) : ℚ)/50 := by
        have : st2.timestamp = st.timestamp + chunk_duration := htsstep
        rw [this, hts, chunk_duration_eq]
        push_cast
        ring
      have hrest := ih (k+1) st2 hinv2 hts2 (by simp at hk ⊢; omega)
      simpa [processChunksSt, hq] using hrest

/-- C7: once the stream is long enough that the running timestamp exceeds
`max_greeting_length` (more than 1500 chunks of 20 ms) and no fusion
decision has been returned (none ever is), processing returns the timeout
result: drop at exactly `max_greeting_length`, confidence 0.5,
methods ["timeout"], compliance "safe". -/
theorem C7_timeout_result (model : Capability) (chunks : List ChunkFeat)
    (h : 1500 < chunks.length) :
    process_file model chunks =
      ⟨max_greeting_length, "timeout", 1/2, ["timeout"], "safe", Details.timeoutInfo⟩ :=
  timeout_run model chunks 0 ProcState.init Inv_init (by norm_num [ProcState.init]) (by omega)

/-- Witness for C7: a 30.02-second silent stream times out. -/
theorem C7_witness :
    1500 < (List.replicate 1501 quietChunk).length ∧
    process_file none (List.replicate 1501 quietChunk) =
      ⟨max_greeting_length, "timeout", 1/2, ["timeout"], "safe", Details.timeoutInfo⟩ :=
  ⟨by rw [List.length_replicate]; norm_num,
    C7_timeout_result none _ (by rw [List.length_replicate]; norm_num)⟩

/-- The run buffer length equals the current qualifying-run length. -/
lemma beep_buffer_len (p : ℕ → ℚ) :
    ∀ n, (beepStateAt p n).beep_buffer.length = beepRunLen p n := by
  intro n
  induction n with
  | zero => rfl
  | succ n ih =>
    simp only [beepStateAt, beepRunLen]
    unfold BeepDetector.analyze_chunk
    by_cases he : BEEP_ENERGY_THRESHOLD < p n
    · rw [if_pos he]
      split <;> simp [ih]
    · simp [he]

/-- Confirmation on chunk `n` means: the chunk qualifies and the run
(including it) has reached 10. -/
lemma beepConfirm_iff_run (p : ℕ → ℚ) (n : ℕ) :
    beepConfirmAt p n = true ↔
      (BEEP_ENERGY_THRESHOLD < p n ∧ beep_run_chunks ≤ beepRunLen p n + 1) := by
  unfold beepConfirmAt
  unfold BeepDetector.analyze_chunk
  rw [show beepRunLen p n = (beepStateAt p n).beep_buffer.length from
    (beep_buffer_len p n).symm]
  by_cases he : BEEP_ENERGY_THRESHOLD < p n
  · by_cases hl : beep_run_chunks ≤ (beepStateAt p n).beep_buffer.length + 1 <;>
      simp [he, hl]
  · simp [he]

/-- The run reaches `m + 1` at position `k + 1` iff the last `m + 1` chunks
(indices `k - m` through `k`) all qualify. -/
lemma beepRunLen_ge_iff (p : ℕ → ℚ) :
    ∀ (m k : ℕ), m + 1 ≤ beepRunLen p (k+1) ↔
      (m ≤ k ∧ ∀ j, j ≤ m → BEEP_ENERGY_THRESHOLD < p (k - j)) := by
  intro m
  induction m with
  | zero =>
    intro k
    constructor
    · intro h1
      by_cases hq : BEEP_ENERGY_THRESHOLD < p k
      · refine ⟨Nat.zero_le _, fun j hj => ?_⟩
        interval_cases j
        simpa using hq
      · rw [show beepRunLen p (k+1) = 0 from by simp [beepRunLen, hq]] at h1
        exact absurd h1 (by omega)
    · rintro ⟨-, hall⟩
      have hq := hall 0 le_rfl
      simp only [Nat.sub_zero] at hq
      simp [beepRunLen, hq]
  | succ m ih =>
    intro k
    by_cases hq : BEEP_ENERGY_THRESHOLD < p k
    · rw [show beepRunLen p (k+1) = beepRunLen p k + 1 from by simp [beepRunLen, hq]]
      cases k with
      | zero =>
        rw [show beepRunLen p 0 = 0 from rfl]
        constructor
        · intro h
          exact absurd h (by omega)
        · rintro ⟨h, -⟩
          exact absurd h (by omega)
      | succ k' =>
        rw [Nat.add_le_add_iff_right, ih k']
        constructor
        · rintro ⟨hmk, hall⟩
          refine ⟨Nat.succ_le_succ hmk, fun j hj => ?_⟩
          cases j with
          | zero => simpa using hq
          | succ j' =>
            have hj' : j' ≤ m := Nat.le_of_succ_le_succ hj
            have := hall j' hj'
            rwa [Nat.succ_sub_succ]
        · rintro ⟨hmk, hall⟩
          refine ⟨Nat.le_of_succ_le_succ hmk, fun j hj => ?_⟩
          have := hall (j+1) (Nat.succ_le_succ hj)
          rwa [Nat.succ_sub_succ] at this
    · rw [show beepRunLen p (k+1) = 0 from by simp [beepRunLen, hq]]
      constructor
      · intro h
        exact absurd h (by omega)
      · rintro ⟨-, hall⟩
        exact absurd (by simpa using hall 0 (Nat.zero_le _)) hq

/-- C8: the tone detector confirms a beep on chunk `n` iff that chunk and the
9 immediately preceding chunks all have an in-band peak above
`beep_energy_threshold_db`, with no intervening non-qualifying chunk (one
such chunk empties the run buffer, making the characterisation fail); on
confirmation the returned confidence equals
clamp((peak_db - threshold_db) / 20, 0, 1). -/
theorem C8_beep_confirmation (p : ℕ → ℚ) (n : ℕ) :
    (beepConfirmAt p n = true ↔
      (9 ≤ n ∧ ∀ j, j ≤ 9 → BEEP_ENERGY_THRESHOLD < p (n - j))) ∧
    (beepConfirmAt p n = true →
      beepConfAt p n = max 0 (min 1 ((p n - BEEP_ENERGY_THRESHOLD) / 20))) := by
  constructor
  · rw [beepConfirm_iff_run]
    constructor
    · rintro ⟨hq, hrun⟩
      have hrun10 : 10 ≤ beepRunLen p n + 1 := hrun
      have h10 : 9 + 1 ≤ beepRunLen p (n+1) := by
        rw [show beepRunLen p (n+1) = beepRunLen p n + 1 from by simp [beepRunLen, hq]]
        omega
      exact (beepRunLen_ge_iff p 9 n).mp h10
    · rintro ⟨h9, hall⟩
      have hq : BEEP_ENERGY_THRESHOLD < p n := by simpa using hall 0 (by omega)
      have h10 := (beepRunLen_ge_iff p 9 n).mpr ⟨h9, hall⟩
      rw [show beepRunLen p (n+1) = beepRunLen p n + 1 from by simp [beepRunLen, hq]] at h10
      refine ⟨hq, ?_⟩
      rw [show beep_run_chunks = 10 from rfl]
      omega
  · intro hconf
    obtain ⟨hq, hrun⟩ := (beepConfirm_iff_run p n).mp hconf
    have hl : beep_run_chunks ≤
        ((beepStateAt p n).beep_buffer ++ [(n : ℚ) * chunk_duration]).length := by
      rw [List.length_append, List.length_singleton, beep_buffer_len]
      exact hrun
    unfold beepConfAt
    unfold BeepDetector.analyze_chunk
    rw [if_pos hq, if_pos hl]
    have hx : (0:ℚ) ≤ (p n - BEEP_ENERGY_THRESHOLD) / 20 :=
      div_nonneg (by linarith) (by norm_num)
    rw [max_eq_right (le_min (by norm_num) hx)]

/-- Witness for C8 at a constant -10 dB stream and chunk 9. -/
theorem C8_witness :
    beepConfirmAt (fun _ => (-10 : ℚ)) 9 = true ∧
    beepConfAt (fun _ => (-10 : ℚ)) 9 =
      max 0 (min 1 ((-10 - BEEP_ENERGY_THRESHOLD) / 20)) := by
  have h := C8_beep_confirmation (fun _ => (-10 : ℚ)) 9
  have hc : beepConfirmAt (fun _ => (-10 : ℚ)) 9 = true :=
    h.1.mpr ⟨le_rfl, fun j hj => by norm_num [BEEP_ENERGY_THRESHOLD]⟩
  exact ⟨hc, h.2 hc⟩

/-- A quiet chunk from a quiet state: the beep buffer stays cleared, the
silence tracker keeps its start marker and zero last-speech time, and the
timestamp advances one chunk. -/
lemma detectorUpdate_quiet (k : ℕ) (s : ℚ) (C : List ℚ) :
    detectorUpdate (Sq k s C) quietChunk = Sq (k+1) s C := by
  have hbeep : BeepDetector.analyze_chunk (Sq k s C).beep quietChunk.beep_energy
      (Sq k s C).timestamp = (⟨[], []⟩, false, 0) := by
    show BeepDetector.analyze_chunk ⟨[], []⟩ (-60) _ = _
    unfold BeepDetector.analyze_chunk
    rw [if_neg (by norm_num [BEEP_ENERGY_THRESHOLD])]
  have hsil : SilenceTracker.analyze_chunk (Sq k s C).silence quietChunk.rms_db
      (Sq k s C).timestamp quietChunk.is_speech = (⟨some s, 0, false⟩, false, 0) := by
    show SilenceTracker.analyze_chunk ⟨some s, 0, false⟩ (-60) _ false = _
    unfold SilenceTracker.analyze_chunk
    rw [if_pos (by norm_num [SILENCE_THRESHOLD_DB]),
      if_neg (by rintro ⟨-, h⟩; exact lt_irrefl _ h)]
    rfl
  unfold detectorUpdate
  rw [hbeep, hsil]
  have harr : (k : ℚ)/50 + chunk_duration = ((k+1 : ℕ) : ℚ)/50 := by
    rw [chunk_duration_eq]
    push_cast
    ring
  simp [Sq, ProcState.mk.injEq, harr]

/-- The phrase cadence on a quiet state only logs the invocation: the blank
transcript keeps the verdict at the zero verdict. -/
lemma phraseUpdate_Sq (a : ℕ) (s : ℚ) (C : List ℚ) :
    phraseUpdate none (Sq a s C) =
      (if phraseGate ((a : ℚ)/50) then Sq a s (C ++ [(a : ℚ)/50]) else Sq a s C) := by
  unfold phraseUpdate
  simp only [show (Sq a s C).timestamp = (a : ℚ)/50 from rfl]
  by_cases hp : phraseGate ((a : ℚ)/50) = true
  · rw [if_pos hp, if_pos hp]
    rfl
  · rw [if_neg hp, if_neg hp]

/-- One loop iteration on a quiet chunk within the 30 s budget: no early
return, the state stays quiet, and the call log grows exactly when both
cadence gates pass. -/
lemma stepChunk_quiet (k : ℕ) (s : ℚ) (C : List ℚ) (hk : k + 1 ≤ 1500) :
    stepChunk none (Sq k s C) quietChunk =
      (none, Sq (k+1) s (C ++
        (if evalGate (((k+1 : ℕ) : ℚ)/50) && phraseGate (((k+1 : ℕ) : ℚ)/50)
          then [(((k+1 : ℕ) : ℚ)/50)] else []))) := by
  have hto : ¬ max_greeting_length < ((k+1 : ℕ) : ℚ)/50 := by
    rw [max_greeting_length, not_lt]
    have h15 : ((k+1 : ℕ) : ℚ) ≤ 1500 := by exact_mod_cast hk
    linarith
  have hts : (Sq (k+1) s C).timestamp = ((k+1 : ℕ) : ℚ)/50 := rfl
  simp only [stepChunk, detectorUpdate_quiet, hts, phraseUpdate_Sq]
  by_cases hg : evalGate (((k+1 : ℕ) : ℚ)/50) = true
  · rw [if_pos hg]
    by_cases hp : phraseGate (((k+1 : ℕ) : ℚ)/50) = true
    · rw [if_pos hp, hg, hp]
      have hmd : FusionEngine.make_decision (((k+1 : ℕ) : ℚ)/50)
          (Sq (k+1) s (C ++ [((k+1 : ℕ) : ℚ)/50])).beep_detected
          (Sq (k+1) s (C ++ [((k+1 : ℕ) : ℚ)/50])).beep_conf
          (BeepDetector.get_last_beep (Sq (k+1) s (C ++ [((k+1 : ℕ) : ℚ)/50])).beep)
          (Sq (k+1) s (C ++ [((k+1 : ℕ) : ℚ)/50])).phrase_result
          (Sq (k+1) s (C ++ [((k+1 : ℕ) : ℚ)/50])).silence_detected
          (Sq (k+1) s (C ++ [((k+1 : ℕ) : ℚ)/50])).silence_conf = none :=
        make_decision_no_signals _ _ _ _ _
      rw [hmd, if_neg hto]
      simp
    · rw [if_neg hp, hg]
      simp only [Bool.true_and]
      rw [if_neg hp]
      have hmd : FusionEngine.make_decision (((k+1 : ℕ) : ℚ)/50)
          (Sq (k+1) s C).beep_detected (Sq (k+1) s C).beep_conf
          (BeepDetector.get_last_beep (Sq (k+1) s C).beep)
          (Sq (k+1) s C).phrase_result (Sq (k+1) s C).silence_detected
          (Sq (k+1) s C).silence_conf = none :=
        make_decision_no_signals _ _ _ _ _
      rw [hmd, if_neg hto]
      simp
  · rw [if_neg hg]
    have hgf : evalGate (((k+1 : ℕ) : ℚ)/50) = false := by simpa using hg
    rw [hgf, if_neg hto]
    simp

/-- Unfolding one loop iteration that neither decides nor times out. -/
lemma processChunksSt_cons_none (model : Capability) (st st2 : ProcState) (c : ChunkFeat)
    (rest : List ChunkFeat) (h : stepChunk model st c = (none, st2)) :
    processChunksSt model st (c :: rest) = processChunksSt model st2 rest := by
  simp [processChunksSt, h]

/-- Running any number of quiet chunks within the 30 s budget from a quiet
state only advances the clock and accumulates the cadence call log. -/
lemma quiet_run (s : ℚ) :
    ∀ (n k : ℕ) (C : List ℚ) (tail : List ChunkFeat), k + n ≤ 1500 →
      processChunksSt none (Sq k s C) (List.replicate n quietChunk ++ tail) =
      processChunksSt none (Sq (k+n) s (C ++ gateTimes k n)) tail := by
  intro n
  induction n with
  | zero =>
    intro k C tail h
    simp [gateTimes]
  | succ n ih =>
    intro k C tail h
    rw [List.replicate_succ, List.cons_append]
    have hstep := stepChunk_quiet k s C (by omega)
    rw [processChunksSt_cons_none none _ _ _ _ hstep, ih (k+1) _ tail (by omega)]
    rw [show k+1+n = k+(n+1) from by omega, List.append_assoc]
    rfl

set_option maxRecDepth 400000 in
/-- C1 (counterexample): on a 1500-chunk stream whose final 10 chunks are a
beep run (confirmed at t = 29.98 s), the end-of-file path returns
drop_timestamp = 29.98 + 0.1 = 30.08 s, exceeding `max_greeting_length`:
the claimed upper bound `drop_timestamp ≤ max_greeting_length` is violated. -/
theorem C1_counterexample :
    ¬ (process_file none c1stream).drop_timestamp ≤ max_greeting_length ∧
    (process_file none c1stream).drop_timestamp =
      max_greeting_length + (min_buffer_beep - chunk_duration) := by
  have h0 : stepChunk none ProcState.init quietChunk = (none, Sq 1 0 []) := by decide
  have hsplit : c1stream =
      quietChunk :: (List.replicate 1489 quietChunk ++ List.replicate 10 beepChunk) := by
    show List.replicate 1490 quietChunk ++ _ = _
    rw [show (1490 : ℕ) = 1489 + 1 from rfl, List.replicate_succ, List.cons_append]
  unfold process_file
  rw [hsplit, processChunksSt_cons_none none _ _ _ _ h0,
    quiet_run 0 1489 1 [] (List.replicate 10 beepChunk) (by omega), List.nil_append]
  exact ⟨by decide, by decide⟩

end VoicemailDrop
